import Mathlib

/-
Shallow embedding of the pool / session orchestration layer of
src/src/mysql/db.go (package mysql): DB, dbConn, Stmt, Tx and their
operations.  The external collaborator conn (the MySQL wire-protocol
session, out of scope per the spec) is modelled from the spec: every
protocol command consults an oracle for its result and, on success,
updates the modelled session flags (in-transaction, autocommit).
A trace of per-connection events (mutex lock/unlock, commands sent,
connection closes) records the observable behaviour of each run.
-/

namespace MixerDB

/-- Error kinds of the layer: ErrBadConn and ErrTxDone are the two
distinguished sentinels of db.go; connectFail and protocol stand for
the remaining connect / server errors (propagated, never retried). -/
inductive Err where
  | badConn
  | txDone
  | connectFail
  | protocol (n : Nat)
deriving DecidableEq

/-- Result of an operation: none is the nil error (success). -/
abbrev Res := Option Err

/-- Protocol commands sent to the external conn collaborator. -/
inductive Cmd where
  | connect
  | ping
  | exec (sql : String)
  | query (sql : String)
  | prepareCmd (sql : String)
  | beginCmd
  | commitCmd
  | rollbackCmd
  | stmtExec (sid : Nat)
  | stmtQuery (sid : Nat)
  | stmtClose (sid : Nat)
deriving DecidableEq

/-- Observable events of a run: per-connection mutex lock/unlock,
a command sent on a connection, and the close of a connection. -/
inductive Ev where
  | lock (cid : Nat)
  | unlock (cid : Nat)
  | cmd (cid : Nat) (c : Cmd)
  | connClosed (cid : Nat)
deriving DecidableEq

/-- State of one pooled connection (dbConn in db.go): the closed flag,
plus the modelled session state of the wrapped conn.  The dbConn field
stmts (map to bool) is initialized in db.go but never read or written
afterwards, so it is omitted. -/
structure ConnData where
  closed : Bool
  inTrans : Bool
  autoCommit : Bool
deriving DecidableEq

/-- Modelled from the spec: a freshly connected MySQL session is not in
a transaction and has autocommit enabled. -/
def ConnData.fresh : ConnData :=
  { closed := false, inTrans := false, autoCommit := true }

/-- Modelled from the spec: effect of a successful command on the conn
session flags.  begin enters a transaction; commit and rollback leave
it; executing the statement "set autocommit = 1" enables autocommit. -/
def ConnData.apply (d : ConnData) : Cmd → ConnData
  | Cmd.beginCmd => { d with inTrans := true }
  | Cmd.commitCmd => { d with inTrans := false }
  | Cmd.rollbackCmd => { d with inTrans := false }
  | Cmd.exec sql => if sql = "set autocommit = 1" then { d with autoCommit := true } else d
  | _ => d

/-- Whole-system state: the DB descriptor (maxIdleConns), the oracle
giving the external result of the n-th command sent, the registry of
connection states (by connection id), the pool's idle list (db.conns;
entries are Option because db.go can push a nil dbConn), and the run's
event trace. -/
structure World where
  maxIdleConns : Nat
  oracle : Nat → Cmd → Res
  time : Nat
  conns : Nat → ConnData
  nextConn : Nat
  nextStmt : Nat
  idle : List (Option Nat)
  trace : List Ev

/-- Point update of the connection registry. -/
def updConn (f : Nat → ConnData) (i : Nat) (d : ConnData) : Nat → ConnData :=
  fun j => if j = i then d else f j

/-- Append one event to the trace. -/
def World.addEv (w : World) (e : Ev) : World :=
  { w with trace := w.trace ++ [e] }

/-- Send a command on a connection: consult the oracle, log the event,
and on success apply the modelled session-state effect. -/
def connCmd (w : World) (cid : Nat) (c : Cmd) : Res × World :=
  let r := w.oracle w.time c
  (r,
    { w with
      time := w.time + 1
      trace := w.trace ++ [Ev.cmd cid c]
      conns := if r = none then updConn w.conns cid (ConnData.apply (w.conns cid) c) else w.conns })

/-- dbConn.Close (db.go 31-38): idempotent; on the first call set the
closed flag and close the wrapped conn. -/
def dbConnClose (w : World) (cid : Nat) : World :=
  if (w.conns cid).closed then w
  else
    { w with
      conns := updConn w.conns cid { w.conns cid with closed := true }
      trace := w.trace ++ [Ev.connClosed cid] }

/-- DB.newConn (db.go 54-69): connect a fresh conn; on failure return
the error, otherwise register a new open connection. -/
def newConn (w : World) : Except Err Nat × World :=
  let cid := w.nextConn
  let p := connCmd { w with nextConn := w.nextConn + 1 } cid Cmd.connect
  match p.1 with
  | some e => (Except.error e, p.2)
  | none => (Except.ok cid, { p.2 with conns := updConn p.2.conns cid ConnData.fresh })

/-- DB.tryReuse (db.go 71-86): roll back a connection found inside a
transaction, else re-enable autocommit when it is disabled. -/
def tryReuse (w : World) (cid : Nat) : Res × World :=
  if (w.conns cid).inTrans then
    connCmd w cid Cmd.rollbackCmd
  else if (w.conns cid).autoCommit = false then
    connCmd w cid (Cmd.exec "set autocommit = 1")
  else
    (none, w)

/-- The candidate-probing path of DB.popConn (db.go 97-109): under the
candidate's mutex, ping it and reconcile with tryReuse; on success
return it, otherwise close it and fall through to a fresh connect. -/
def popCand (w : World) (cid : Nat) : Except Err Nat × World :=
  let p := connCmd (w.addEv (Ev.lock cid)) cid Cmd.ping
  if p.1 = none then
    let q := tryReuse p.2 cid
    if q.1 = none then
      (Except.ok cid, q.2.addEv (Ev.unlock cid))
    else
      newConn ((dbConnClose q.2 cid).addEv (Ev.unlock cid))
  else
    newConn ((dbConnClose p.2 cid).addEv (Ev.unlock cid))

/-- DB.popConn (db.go 88-112): take the most recently pushed idle entry
if any; a nil entry, like an empty list, falls through to a fresh
connect; a real candidate is probed by popCand. -/
def popConn (w : World) : Except Err Nat × World :=
  match w.idle.getLast? with
  | none => newConn w
  | some none => newConn { w with idle := w.idle.dropLast }
  | some (some cid) => popCand { w with idle := w.idle.dropLast } cid

/-- Close a connection under its own mutex (the tail of pushConn). -/
def closeLocked (w : World) (cid : Nat) : World :=
  (dbConnClose (w.addEv (Ev.lock cid)) cid).addEv (Ev.unlock cid)

/-- DB.pushConn (db.go 114-137): on ErrBadConn close the connection;
otherwise append it to the idle list when below maxIdleConns and close
it when the list is full.  A nil connection is appended like any other
value and is never dereferenced for closing. -/
def pushConn (w : World) (co : Option Nat) (e : Res) : World :=
  if e = some Err.badConn then
    match co with
    | some cid => closeLocked w cid
    | none => w
  else
    if w.maxIdleConns ≤ w.idle.length then
      match co with
      | some cid => closeLocked w cid
      | none => w
    else
      { w with idle := w.idle ++ [co] }

/-- The retry loop shared by DB.Exec, DB.Query, DB.Prepare and the pool
mode of Stmt (db.go 160-167 etc.): run the step, and repeat only while
it returned ErrBadConn and iterations remain. -/
def retryW {σ : Type} (f : σ → Res × σ) : Nat → σ → Res × σ
  | 0, s => (none, s)
  | Nat.succ n, s =>
    let p := f s
    if p.1 = some Err.badConn ∧ n ≠ 0 then retryW f n p.2 else p

/-- db.exec (db.go 169-182): pop a connection, run the statement under
the connection mutex, release the connection with the outcome. -/
def dbExec1 (sql : String) (w : World) : Res × World :=
  match popConn w with
  | (Except.error e, w1) => (some e, w1)
  | (Except.ok cid, w1) =>
    let p := connCmd (w1.addEv (Ev.lock cid)) cid (Cmd.exec sql)
    (p.1, pushConn (p.2.addEv (Ev.unlock cid)) (some cid) p.1)

/-- DB.Exec (db.go 160-167): up to 10 attempts of db.exec. -/
def dbExec (sql : String) (w : World) : Res × World :=
  retryW (dbExec1 sql) 10 w

/-- db.query (db.go 193-206). -/
def dbQuery1 (sql : String) (w : World) : Res × World :=
  match popConn w with
  | (Except.error e, w1) => (some e, w1)
  | (Except.ok cid, w1) =>
    let p := connCmd (w1.addEv (Ev.lock cid)) cid (Cmd.query sql)
    (p.1, pushConn (p.2.addEv (Ev.unlock cid)) (some cid) p.1)

/-- DB.Query (db.go 184-191): up to 10 attempts of db.query. -/
def dbQuery (sql : String) (w : World) : Res × World :=
  retryW (dbQuery1 sql) 10 w

/-- DB.Ping (db.go 139-158): up to 3 attempts; a popConn failure
returns immediately without releasing anything. -/
def dbPingN : Nat → World → Res × World
  | 0, w => (none, w)
  | Nat.succ n, w =>
    match popConn w with
    | (Except.error e, w1) => (some e, w1)
    | (Except.ok cid, w1) =>
      let p := connCmd (w1.addEv (Ev.lock cid)) cid Cmd.ping
      let w2 := pushConn (p.2.addEv (Ev.unlock cid)) (some cid) p.1
      if p.1 = some Err.badConn ∧ n ≠ 0 then dbPingN n w2 else (p.1, w2)

/-- DB.Ping entry point with its bound of 3. -/
def dbPing (w : World) : Res × World :=
  dbPingN 3 w

/-- Tx (db.go 434-439): the done flag and the pinned connection. -/
structure TxS where
  done : Bool
  conn : Nat
deriving DecidableEq

/-- Stmt (db.go 260-269): the SQL text, the per-connection cache of
server-side statements (association list keyed by connection id), and
the transactional binding.  In db.go the fields tx and txStmt are two
pointers that are only ever read together under a tx nil-check, so
they are modelled as one optional pair. -/
structure StmtS where
  str : String
  stmts : List (Nat × Nat)
  tx : Option (TxS × Nat)

/-- newStmt (db.go 271-282). -/
def newStmt (sql : String) : StmtS :=
  { str := sql, stmts := [], tx := none }

/-- Lookup of the statement cache (the map access s.stmts[conn]). -/
def lookupStmt : List (Nat × Nat) → Nat → Option Nat
  | [], _ => none
  | (c, s) :: rest, cid => if c = cid then some s else lookupStmt rest cid

/-- Stmt.prepare (db.go 315-335): pop a connection; reuse the cached
server statement for that connection when present, otherwise prepare
under the connection mutex and cache the result on success only.
Returns (connection, server statement, error); the caller releases the
connection. -/
def stmtPrepare (s : StmtS) (sql : String) (w : World) :
    (Option Nat × Option Nat × Res) × StmtS × World :=
  match popConn w with
  | (Except.error e, w1) => ((none, none, some e), s, w1)
  | (Except.ok cid, w1) =>
    match lookupStmt s.stmts cid with
    | some sid => ((some cid, some sid, none), s, w1)
    | none =>
      let p := connCmd (w1.addEv (Ev.lock cid)) cid (Cmd.prepareCmd sql)
      let w3 := p.2.addEv (Ev.unlock cid)
      match p.1 with
      | none =>
        ((some cid, some w3.nextStmt, none),
          { s with stmts := s.stmts ++ [(cid, w3.nextStmt)] },
          { w3 with nextStmt := w3.nextStmt + 1 })
      | some e => ((some cid, none, some e), s, w3)

/-- Stmt.exec (db.go 357-369): prepare (or hit the cache), execute the
server statement under the connection mutex, release the connection on
both the error and the success path. -/
def stmtExecStep (sw : StmtS × World) : Res × (StmtS × World) :=
  let p := stmtPrepare sw.1 sw.1.str sw.2
  match p.1.1, p.1.2.1, p.1.2.2 with
  | co, _, some e => (some e, (p.2.1, pushConn p.2.2 co (some e)))
  | some cid, some sid, none =>
    let q := connCmd (p.2.2.addEv (Ev.lock cid)) cid (Cmd.stmtExec sid)
    (q.1, (p.2.1, pushConn (q.2.addEv (Ev.unlock cid)) (some cid) q.1))
  | _, _, none => (none, (p.2.1, p.2.2))

/-- Stmt.query (db.go 391-403). -/
def stmtQueryStep (sw : StmtS × World) : Res × (StmtS × World) :=
  let p := stmtPrepare sw.1 sw.1.str sw.2
  match p.1.1, p.1.2.1, p.1.2.2 with
  | co, _, some e => (some e, (p.2.1, pushConn p.2.2 co (some e)))
  | some cid, some sid, none =>
    let q := connCmd (p.2.2.addEv (Ev.lock cid)) cid (Cmd.stmtQuery sid)
    (q.1, (p.2.1, pushConn (q.2.addEv (Ev.unlock cid)) (some cid) q.1))
  | _, _, none => (none, (p.2.1, p.2.2))

/-- Stmt.txClose (db.go 405-415): close the transactional server
statement under the pinned connection's mutex unless that connection
is already closed, then clear the transactional binding. -/
def txClose (s : StmtS) (w : World) : Res × StmtS × World :=
  match s.tx with
  | none => (none, s, w)
  | some (t, sid) =>
    let w1 := w.addEv (Ev.lock t.conn)
    let p := if (w1.conns t.conn).closed then (none, w1) else connCmd w1 t.conn (Cmd.stmtClose sid)
    (p.1, { s with tx := none }, p.2.addEv (Ev.unlock t.conn))

/-- Stmt.txExec (db.go 299-313): if the transaction is done, close the
transactional statement and fail with ErrTxDone; otherwise run the
pinned server statement under the pinned connection's mutex.  The tx
nil case is unreachable: every caller guards on tx being set (db.go
would dereference nil there). -/
def txExec (s : StmtS) (w : World) : Res × StmtS × World :=
  match s.tx with
  | none => (some Err.txDone, s, w)
  | some (t, sid) =>
    if t.done then
      let p := txClose s w
      (some Err.txDone, p.2.1, p.2.2)
    else
      let q := connCmd (w.addEv (Ev.lock t.conn)) t.conn (Cmd.stmtExec sid)
      (q.1, s, q.2.addEv (Ev.unlock t.conn))

/-- Stmt.txQuery (db.go 284-297). -/
def txQuery (s : StmtS) (w : World) : Res × StmtS × World :=
  match s.tx with
  | none => (some Err.txDone, s, w)
  | some (t, sid) =>
    if t.done then
      let p := txClose s w
      (some Err.txDone, p.2.1, p.2.2)
    else
      let q := connCmd (w.addEv (Ev.lock t.conn)) t.conn (Cmd.stmtQuery sid)
      (q.1, s, q.2.addEv (Ev.unlock t.conn))

/-- Stmt.Exec (db.go 337-355): with a transaction set, run the
transactional path and return unless it failed with ErrTxDone; then,
or without a transaction, run up to 10 pool-mode attempts. -/
def StmtExec (s : StmtS) (w : World) : Res × StmtS × World :=
  match s.tx with
  | some _ =>
    let p := txExec s w
    if p.1 = none then p
    else if p.1 ≠ some Err.txDone then p
    else
      let q := retryW stmtExecStep 10 (p.2.1, p.2.2)
      (q.1, q.2.1, q.2.2)
  | none =>
    let q := retryW stmtExecStep 10 (s, w)
    (q.1, q.2.1, q.2.2)

/-- Stmt.Query (db.go 371-389). -/
def StmtQuery (s : StmtS) (w : World) : Res × StmtS × World :=
  match s.tx with
  | some _ =>
    let p := txQuery s w
    if p.1 = none then p
    else if p.1 ≠ some Err.txDone then p
    else
      let q := retryW stmtQueryStep 10 (p.2.1, p.2.2)
      (q.1, q.2.1, q.2.2)
  | none =>
    let q := retryW stmtQueryStep 10 (s, w)
    (q.1, q.2.1, q.2.2)

/-- The range loop of Stmt.Close (db.go 422-428): for each cached
entry, under the connection's mutex, close the server statement when
the connection is not closed; the running error is overwritten by each
attempted close and kept across skipped entries. -/
def closeAll : World → Res → List (Nat × Nat) → Res × World
  | w, e, [] => (e, w)
  | w, e, (cid, sid) :: rest =>
    let w1 := w.addEv (Ev.lock cid)
    let p := if (w1.conns cid).closed then (e, w1) else connCmd w1 cid (Cmd.stmtClose sid)
    closeAll (p.2.addEv (Ev.unlock cid)) p.1 rest

/-- Stmt.Close (db.go 417-432): transactional statements delegate to
txClose; in pool mode close every cached server statement and reset
the cache to empty. -/
def StmtClose (s : StmtS) (w : World) : Res × StmtS × World :=
  match s.tx with
  | some _ => txClose s w
  | none =>
    let p := closeAll w none s.stmts
    (p.1, { s with stmts := [] }, p.2)

/-- Tx.Exec (db.go 441-450): gated on done, then run on the pinned
connection under its mutex. -/
def TxExec (t : TxS) (sql : String) (w : World) : Res × World :=
  if t.done then (some Err.txDone, w)
  else
    let p := connCmd (w.addEv (Ev.lock t.conn)) t.conn (Cmd.exec sql)
    (p.1, p.2.addEv (Ev.unlock t.conn))

/-- Tx.Query (db.go 452-461). -/
def TxQuery (t : TxS) (sql : String) (w : World) : Res × World :=
  if t.done then (some Err.txDone, w)
  else
    let p := connCmd (w.addEv (Ev.lock t.conn)) t.conn (Cmd.query sql)
    (p.1, p.2.addEv (Ev.unlock t.conn))

/-- Tx.Prepare (db.go 463-482): gated on done; prepare on the pinned
connection and on success return a statement bound to this tx. -/
def TxPrepare (t : TxS) (sql : String) (w : World) : Res × Option StmtS × World :=
  if t.done then (some Err.txDone, none, w)
  else
    let p := connCmd (w.addEv (Ev.lock t.conn)) t.conn (Cmd.prepareCmd sql)
    let w2 := p.2.addEv (Ev.unlock t.conn)
    match p.1 with
    | some e => (some e, none, w2)
    | none =>
      (none, some { str := sql, stmts := [], tx := some (t, w2.nextStmt) },
        { w2 with nextStmt := w2.nextStmt + 1 })

/-- Tx.Commit (db.go 484-498): gated on done; send the commit command
under the pinned connection's mutex, release the connection with the
command's error, set done, return the command's error. -/
def TxCommit (t : TxS) (w : World) : Res × TxS × World :=
  if t.done then (some Err.txDone, t, w)
  else
    let p := connCmd (w.addEv (Ev.lock t.conn)) t.conn Cmd.commitCmd
    (p.1, { t with done := true },
      pushConn (p.2.addEv (Ev.unlock t.conn)) (some t.conn) p.1)

/-- Tx.Rollback (db.go 500-514): the body is identical to Tx.Commit,
including the command sent: db.go line 506 invokes t.conn.Commit(),
not Rollback. -/
def TxRollback (t : TxS) (w : World) : Res × TxS × World :=
  if t.done then (some Err.txDone, t, w)
  else
    let p := connCmd (w.addEv (Ev.lock t.conn)) t.conn Cmd.commitCmd
    (p.1, { t with done := true },
      pushConn (p.2.addEv (Ev.unlock t.conn)) (some t.conn) p.1)

/-- db.begin (db.go 246-255): pop a connection and send begin on it;
the connection is returned alongside the begin error. -/
def dbBegin1 (w : World) : (Option Nat × Res) × World :=
  match popConn w with
  | (Except.error e, w1) => ((none, some e), w1)
  | (Except.ok cid, w1) =>
    let p := connCmd (w1.addEv (Ev.lock cid)) cid Cmd.beginCmd
    ((some cid, p.1), p.2.addEv (Ev.unlock cid))

/-- DB.Begin (db.go 222-244): up to 10 attempts; on success transfer
the connection to the new Tx, on failure release it (possibly nil)
with the error and retry only on ErrBadConn. -/
def dbBeginN : Nat → World → (Res × Option TxS) × World
  | 0, w => ((none, none), w)
  | Nat.succ n, w =>
    let p := dbBegin1 w
    match p.1.2 with
    | none => ((none, p.1.1.map (fun cid => { done := false, conn := cid })), p.2)
    | some e =>
      let w1 := pushConn p.2 p.1.1 (some e)
      if e = Err.badConn ∧ n ≠ 0 then dbBeginN n w1 else ((some e, none), w1)

/-- DB.Begin entry point with its bound of 10. -/
def dbBegin (w : World) : (Res × Option TxS) × World :=
  dbBeginN 10 w

/-- One attempt of DB.Prepare (db.go 212-218): Stmt.prepare followed by
the unconditional release of the (possibly nil) connection. -/
def dbPrepareStep (sql : String) (sw : StmtS × World) : Res × (StmtS × World) :=
  let p := stmtPrepare sw.1 sql sw.2
  (p.1.2.2, (p.2.1, pushConn p.2.2 p.1.1 p.1.2.2))

/-- DB.Prepare (db.go 208-220): create the statement, then up to 10
attempts of prepare-and-release retried only on ErrBadConn. -/
def dbPrepare (sql : String) (w : World) : Res × (StmtS × World) :=
  retryW (dbPrepareStep sql) 10 (newStmt sql, w)

/-- NewDB (db.go 40-52): fresh descriptor with an empty idle list. -/
def newDB (maxIdle : Nat) (o : Nat → Cmd → Res) : World :=
  { maxIdleConns := maxIdle, oracle := o, time := 0,
    conns := fun _ => ConnData.fresh, nextConn := 0, nextStmt := 0,
    idle := [], trace := [] }

/-- Event predicate: a rollback command sent on any connection. -/
def isRollbackEv : Ev → Bool
  | Ev.cmd _ Cmd.rollbackCmd => true
  | _ => false

/-- Event predicate: a ping command sent on any connection. -/
def isPingEv : Ev → Bool
  | Ev.cmd _ Cmd.ping => true
  | _ => false

/-- Event predicate: an exec of the given SQL sent on any connection. -/
def isExecEv (sql : String) : Ev → Bool
  | Ev.cmd _ (Cmd.exec q) => q == sql
  | _ => false

/-- Event predicate: a server-side prepare sent on any connection. -/
def isPrepEv : Ev → Bool
  | Ev.cmd _ (Cmd.prepareCmd _) => true
  | _ => false

/-- Oracle of an infallible external conn: every command succeeds. -/
def oAllOk : Nat → Cmd → Res := fun _ _ => none

/-- Oracle where every statement execution fails with ErrBadConn and
everything else succeeds. -/
def oExecBad : Nat → Cmd → Res := fun _ c =>
  match c with
  | Cmd.exec _ => some Err.badConn
  | _ => none

/-- Oracle where every ping fails with ErrBadConn and everything else
succeeds. -/
def oPingBad : Nat → Cmd → Res := fun _ c =>
  match c with
  | Cmd.ping => some Err.badConn
  | _ => none

/-- Oracle where establishing a connection fails with a plain connect
error and everything else succeeds. -/
def oConnFail : Nat → Cmd → Res := fun _ c =>
  match c with
  | Cmd.connect => some Err.connectFail
  | _ => none

section Lemmas

theorem updConn_same (f : Nat → ConnData) (i : Nat) (d : ConnData) :
    updConn f i d i = d := by
  simp [updConn]

theorem updConn_other (f : Nat → ConnData) (i j : Nat) (d : ConnData) (h : j ≠ i) :
    updConn f i d j = f j := by
  simp [updConn, h]

theorem connCmd_fst (w : World) (cid : Nat) (c : Cmd) :
    (connCmd w cid c).1 = w.oracle w.time c := rfl

theorem connCmd_idle (w : World) (cid : Nat) (c : Cmd) :
    (connCmd w cid c).2.idle = w.idle := rfl

theorem connCmd_trace (w : World) (cid : Nat) (c : Cmd) :
    (connCmd w cid c).2.trace = w.trace ++ [Ev.cmd cid c] := rfl

theorem connCmd_oracle (w : World) (cid : Nat) (c : Cmd) :
    (connCmd w cid c).2.oracle = w.oracle := rfl

theorem connCmd_time (w : World) (cid : Nat) (c : Cmd) :
    (connCmd w cid c).2.time = w.time + 1 := rfl

theorem connCmd_conns_ok (w : World) (cid : Nat) (c : Cmd)
    (h : w.oracle w.time c = none) :
    (connCmd w cid c).2.conns = updConn w.conns cid (ConnData.apply (w.conns cid) c) := by
  simp [connCmd, h]

theorem addEv_conns (w : World) (e : Ev) : (w.addEv e).conns = w.conns := rfl

theorem addEv_idle (w : World) (e : Ev) : (w.addEv e).idle = w.idle := rfl

/-- A successful tryReuse leaves the reconciled connection outside any
transaction: an in-transaction candidate is rolled back, and the other
branches never set the flag. -/
theorem tryReuse_ok_not_inTrans (w : World) (cid : Nat)
    (h : (tryReuse w cid).1 = none) :
    ((tryReuse w cid).2.conns cid).inTrans = false := by
  unfold tryReuse at h ⊢
  by_cases h1 : (w.conns cid).inTrans = true
  · rw [if_pos h1] at h ⊢
    rw [connCmd_fst] at h
    rw [connCmd_conns_ok _ _ _ h, updConn_same]
    rfl
  · rw [if_neg h1] at h ⊢
    by_cases h2 : (w.conns cid).autoCommit = false
    · rw [if_pos h2] at h ⊢
      rw [connCmd_fst] at h
      rw [connCmd_conns_ok _ _ _ h, updConn_same]
      simp [ConnData.apply]
      simpa using h1
    · rw [if_neg h2] at h ⊢
      simpa using h1

/-- A successful newConn registers a fresh connection under the
returned id. -/
theorem newConn_ok_conns (w : World) (cid : Nat)
    (h : (newConn w).1 = Except.ok cid) :
    (newConn w).2.conns cid = ConnData.fresh := by
  cases ho : w.oracle w.time Cmd.connect with
  | some e =>
    simp [newConn, connCmd, ho] at h
  | none =>
    simp [newConn, connCmd, ho] at h ⊢
    cases h
    rw [updConn_same]

theorem addEv_trace (w : World) (e : Ev) : (w.addEv e).trace = w.trace ++ [e] := rfl

theorem dbConnClose_idle (w : World) (cid : Nat) : (dbConnClose w cid).idle = w.idle := by
  unfold dbConnClose; split <;> rfl

theorem dbConnClose_closed (w : World) (cid : Nat) :
    ((dbConnClose w cid).conns cid).closed = true := by
  unfold dbConnClose
  split
  next h => exact h
  next h =>
    show (updConn w.conns cid { w.conns cid with closed := true } cid).closed = true
    rw [updConn_same]

theorem dbConnClose_trace (w : World) (cid : Nat) :
    ∃ tl, (dbConnClose w cid).trace = w.trace ++ tl := by
  unfold dbConnClose
  split
  · exact ⟨[], by simp⟩
  · exact ⟨[Ev.connClosed cid], rfl⟩

theorem closeLocked_idle (w : World) (cid : Nat) : (closeLocked w cid).idle = w.idle := by
  unfold closeLocked
  rw [addEv_idle, dbConnClose_idle, addEv_idle]

theorem closeLocked_closed (w : World) (cid : Nat) :
    ((closeLocked w cid).conns cid).closed = true := by
  unfold closeLocked
  rw [addEv_conns]
  exact dbConnClose_closed _ _

theorem closeLocked_trace (w : World) (cid : Nat) :
    ∃ tl, (closeLocked w cid).trace = w.trace ++ tl := by
  unfold closeLocked
  obtain ⟨tl, htl⟩ := dbConnClose_trace (w.addEv (Ev.lock cid)) cid
  refine ⟨[Ev.lock cid] ++ tl ++ [Ev.unlock cid], ?_⟩
  rw [addEv_trace, htl, addEv_trace]
  simp

/-- pushConn on ErrBadConn: the idle list is untouched and a non-nil
connection is closed. -/
theorem pushConn_bad (w : World) (co : Option Nat) :
    (pushConn w co (some Err.badConn)).idle = w.idle ∧
    (∀ cid, co = some cid →
      ((pushConn w co (some Err.badConn)).conns cid).closed = true) := by
  unfold pushConn
  rw [if_pos rfl]
  cases co with
  | none => exact ⟨rfl, fun cid hc => by cases hc⟩
  | some c =>
    refine ⟨closeLocked_idle _ _, fun cid hc => ?_⟩
    cases hc
    exact closeLocked_closed _ _

/-- pushConn below capacity on a non-ErrBadConn outcome appends the
connection to the idle list. -/
theorem pushConn_room (w : World) (co : Option Nat) (e : Res)
    (he : e ≠ some Err.badConn) (hlen : w.idle.length < w.maxIdleConns) :
    (pushConn w co e).idle = w.idle ++ [co] := by
  unfold pushConn
  rw [if_neg he, if_neg (not_le.mpr hlen)]

/-- pushConn at capacity on a non-ErrBadConn outcome leaves the idle
list untouched and closes a non-nil connection. -/
theorem pushConn_full (w : World) (co : Option Nat) (e : Res)
    (he : e ≠ some Err.badConn) (hlen : w.maxIdleConns ≤ w.idle.length) :
    (pushConn w co e).idle = w.idle ∧
    (∀ cid, co = some cid → ((pushConn w co e).conns cid).closed = true) := by
  unfold pushConn
  rw [if_neg he, if_pos hlen]
  cases co with
  | none => exact ⟨rfl, fun cid hc => by cases hc⟩
  | some c =>
    refine ⟨closeLocked_idle _ _, fun cid hc => ?_⟩
    cases hc
    exact closeLocked_closed _ _

/-- pushConn never exceeds the idle capacity. -/
theorem pushConn_cap (w : World) (co : Option Nat) (e : Res)
    (h : w.idle.length ≤ w.maxIdleConns) :
    (pushConn w co e).idle.length ≤ w.maxIdleConns := by
  by_cases he : e = some Err.badConn
  · subst he
    rw [(pushConn_bad w co).1]
    exact h
  · by_cases hl : w.maxIdleConns ≤ w.idle.length
    · rw [(pushConn_full w co e he hl).1]
      exact h
    · rw [pushConn_room w co e he (not_le.mp hl)]
      have := not_le.mp hl
      simp only [List.length_append, List.length_singleton]
      omega

/-- pushConn only ever appends events to the trace. -/
theorem pushConn_trace_mono (w : World) (co : Option Nat) (e : Res) :
    ∃ tl, (pushConn w co e).trace = w.trace ++ tl := by
  unfold pushConn
  split
  · cases co with
    | none => exact ⟨[], by simp⟩
    | some c => exact closeLocked_trace _ _
  · split
    · cases co with
      | none => exact ⟨[], by simp⟩
      | some c => exact closeLocked_trace _ _
    · exact ⟨[], by simp⟩

/-- A connection returned by the candidate-probing path is outside any
transaction: it either passed tryReuse or is a fresh connect. -/
theorem popCand_ok_not_inTrans (w : World) (c cid : Nat)
    (h : (popCand w c).1 = Except.ok cid) :
    ((popCand w c).2.conns cid).inTrans = false := by
  simp only [popCand] at h ⊢
  by_cases h1 : (connCmd (w.addEv (Ev.lock c)) c Cmd.ping).1 = none
  · rw [if_pos h1] at h ⊢
    by_cases h2 : (tryReuse (connCmd (w.addEv (Ev.lock c)) c Cmd.ping).2 c).1 = none
    · rw [if_pos h2] at h ⊢
      have hc : c = cid := by simpa using h
      subst hc
      rw [addEv_conns]
      exact tryReuse_ok_not_inTrans _ _ h2
    · rw [if_neg h2] at h ⊢
      rw [newConn_ok_conns _ _ h]; rfl
  · rw [if_neg h1] at h ⊢
    rw [newConn_ok_conns _ _ h]; rfl

end Lemmas

/-- Claim C2 (amended): every connection returned by pool acquire
(popConn) satisfies isInTransaction() == false: an in-transaction
candidate that passes reconciliation was rolled back, and every other
success path yields a fresh or already transaction-free connection.
(The isAutoCommit() half of the original claim fails; see the
counterexample.) -/
theorem C2_popConn_not_in_transaction (w : World) (cid : Nat)
    (h : (popConn w).1 = Except.ok cid) :
    ((popConn w).2.conns cid).inTrans = false := by
  unfold popConn at h ⊢
  cases hg : w.idle.getLast? with
  | none =>
    simp only [hg] at h ⊢
    rw [newConn_ok_conns _ _ h]; rfl
  | some oc =>
    cases oc with
    | none =>
      simp only [hg] at h ⊢
      rw [newConn_ok_conns _ _ h]; rfl
    | some c =>
      simp only [hg] at h ⊢
      exact popCand_ok_not_inTrans _ _ _ h

/-- Pool state holding one idle connection that is simultaneously
inside a transaction and has autocommit disabled. -/
def wC2 : World :=
  { maxIdleConns := 1, oracle := oAllOk, time := 0,
    conns := fun _ => { closed := false, inTrans := true, autoCommit := false },
    nextConn := 1, nextStmt := 0, idle := [some 0], trace := [] }

/-- Claim C2 counterexample: acquiring from wC2 returns connection 0
with isAutoCommit() still false — tryReuse only rolled the candidate
back (the else-if skips the autocommit repair), refuting the claim
that every returned connection has both flags reconciled. -/
theorem C2_counterexample :
    (popConn wC2).1 = Except.ok 0 ∧
    ((popConn wC2).2.conns 0).autoCommit = false ∧
    ((popConn wC2).2.conns 0).inTrans = false ∧
    (wC2.conns 0).inTrans = true ∧
    (wC2.conns 0).autoCommit = false :=
  ⟨rfl, rfl, rfl, rfl, rfl⟩

/-- Witness for the amended claim C2 at the concrete pool state wC2. -/
theorem C2_witness : ((popConn wC2).2.conns 0).inTrans = false :=
  C2_popConn_not_in_transaction wC2 0 rfl

/-- Claim C8: every Tx operation called after done is set returns
ErrTxDone, leaves the world (trace, pool, connections) untouched and
sends no command on the pinned connection. -/
theorem C8_tx_done_gate (t : TxS) (w : World) (sql : String) (h : t.done = true) :
    TxExec t sql w = (some Err.txDone, w) ∧
    TxQuery t sql w = (some Err.txDone, w) ∧
    TxPrepare t sql w = (some Err.txDone, none, w) ∧
    TxCommit t w = (some Err.txDone, t, w) ∧
    TxRollback t w = (some Err.txDone, t, w) := by
  refine ⟨?_, ?_, ?_, ?_, ?_⟩ <;>
    simp [TxExec, TxQuery, TxPrepare, TxCommit, TxRollback, h]

/-- Witness for claim C8 on a concrete finished transaction. -/
theorem C8_witness :
    TxExec { done := true, conn := 0 } "update t set x = 1" (newDB 1 oAllOk)
      = (some Err.txDone, newDB 1 oAllOk) :=
  (C8_tx_done_gate { done := true, conn := 0 } (newDB 1 oAllOk) "update t set x = 1" rfl).1

/-- Claim C1: on a live transaction, Tx.Rollback sends the COMMIT
protocol command on the pinned connection (db.go line 506 calls
t.conn.Commit()), never the rollback command, then releases the
connection and sets done — evaluating the code on a healthy pool. -/
theorem C1_rollback_sends_commit :
    (TxRollback { done := false, conn := 0 } (newDB 1 oAllOk)).2.2.trace
        = [Ev.lock 0, Ev.cmd 0 Cmd.commitCmd, Ev.unlock 0] ∧
    ((TxRollback { done := false, conn := 0 } (newDB 1 oAllOk)).2.2.trace.countP
        isRollbackEv) = 0 ∧
    (TxRollback { done := false, conn := 0 } (newDB 1 oAllOk)).1 = none ∧
    (TxRollback { done := false, conn := 0 } (newDB 1 oAllOk)).2.1.done = true := by
  refine ⟨rfl, rfl, rfl, rfl⟩

/-- Claim C4: pushConn closes an ErrBadConn connection without touching
the idle list; otherwise it appends below maxIdleConns and closes at
capacity; the idle length never exceeds maxIdleConns, and with
maxIdleConns = 0 every released connection is closed. -/
theorem C4_pushConn_policy (w : World) (co : Option Nat) (e : Res) :
    (e = some Err.badConn →
      (pushConn w co e).idle = w.idle ∧
      ∀ cid, co = some cid → ((pushConn w co e).conns cid).closed = true) ∧
    (e ≠ some Err.badConn → w.idle.length < w.maxIdleConns →
      (pushConn w co e).idle = w.idle ++ [co]) ∧
    (e ≠ some Err.badConn → w.maxIdleConns ≤ w.idle.length →
      (pushConn w co e).idle = w.idle ∧
      ∀ cid, co = some cid → ((pushConn w co e).conns cid).closed = true) ∧
    (w.idle.length ≤ w.maxIdleConns →
      (pushConn w co e).idle.length ≤ w.maxIdleConns) ∧
    (w.maxIdleConns = 0 →
      (pushConn w co e).idle = w.idle ∧
      ∀ cid, co = some cid → ((pushConn w co e).conns cid).closed = true) := by
  refine ⟨?_, ?_, ?_, ?_, ?_⟩
  · intro he
    subst he
    exact pushConn_bad w co
  · exact fun he hl => pushConn_room w co e he hl
  · exact fun he hl => pushConn_full w co e he hl
  · exact fun hle => pushConn_cap w co e hle
  · intro h0
    by_cases he : e = some Err.badConn
    · subst he
      exact pushConn_bad w co
    · exact pushConn_full w co e he (by rw [h0]; exact Nat.zero_le _)

/-- Witness for claim C4: a bad connection is evicted without pooling,
a healthy one is pooled below capacity, and with maxIdleConns = 0 a
released connection is closed. -/
theorem C4_witness :
    (pushConn (newDB 1 oAllOk) (some 0) (some Err.badConn)).idle = (newDB 1 oAllOk).idle ∧
    (pushConn (newDB 1 oAllOk) (some 0) none).idle = (newDB 1 oAllOk).idle ++ [some 0] ∧
    ((pushConn (newDB 0 oAllOk) (some 0) none).conns 0).closed = true := by
  refine ⟨?_, ?_, ?_⟩
  · exact ((C4_pushConn_policy (newDB 1 oAllOk) (some 0) (some Err.badConn)).1 rfl).1
  · exact (C4_pushConn_policy (newDB 1 oAllOk) (some 0) none).2.1 (by decide) (by decide)
  · exact ((C4_pushConn_policy (newDB 0 oAllOk) (some 0) none).2.2.2.2 rfl).2 0 rfl

/-- Claim C5: on a live transaction, Tx.Commit returns exactly the
commit command's result, sets done, sends the command between lock and
unlock of the pinned connection, and releases that connection with the
command's error: a BadConn outcome evicts it without pooling, any
other outcome pools it when capacity remains — also when the commit
command failed. -/
theorem C5_commit_release (t : TxS) (w : World) (h : t.done = false) :
    (TxCommit t w).1 = w.oracle w.time Cmd.commitCmd ∧
    (TxCommit t w).2.1 = { t with done := true } ∧
    (∃ tl, (TxCommit t w).2.2.trace
        = w.trace ++ [Ev.lock t.conn, Ev.cmd t.conn Cmd.commitCmd, Ev.unlock t.conn] ++ tl) ∧
    (w.oracle w.time Cmd.commitCmd = some Err.badConn →
      (TxCommit t w).2.2.idle = w.idle ∧
      ((TxCommit t w).2.2.conns t.conn).closed = true) ∧
    (w.oracle w.time Cmd.commitCmd ≠ some Err.badConn →
      w.idle.length < w.maxIdleConns →
      (TxCommit t w).2.2.idle = w.idle ++ [some t.conn]) := by
  have hd : ¬ (t.done = true) := by simp [h]
  refine ⟨?_, ?_, ?_, ?_, ?_⟩
  · simp only [TxCommit, if_neg hd]
    rfl
  · simp only [TxCommit, if_neg hd]
  · simp only [TxCommit, if_neg hd]
    obtain ⟨tl, htl⟩ := pushConn_trace_mono
      ((connCmd (w.addEv (Ev.lock t.conn)) t.conn Cmd.commitCmd).2.addEv (Ev.unlock t.conn))
      (some t.conn)
      (connCmd (w.addEv (Ev.lock t.conn)) t.conn Cmd.commitCmd).1
    refine ⟨tl, ?_⟩
    rw [htl, addEv_trace, connCmd_trace, addEv_trace]
    simp
  · simp only [TxCommit, if_neg hd]
    intro hbad
    have hb2 : (connCmd (w.addEv (Ev.lock t.conn)) t.conn Cmd.commitCmd).1
        = some Err.badConn := hbad
    rw [hb2]
    exact ⟨(pushConn_bad _ _).1, (pushConn_bad _ _).2 t.conn rfl⟩
  · simp only [TxCommit, if_neg hd]
    intro hne hlen
    have hb2 : (connCmd (w.addEv (Ev.lock t.conn)) t.conn Cmd.commitCmd).1
        ≠ some Err.badConn := hne
    exact pushConn_room _ _ _ hb2 hlen

/-- Witness for claim C5: committing a live transaction on a healthy
pool succeeds, marks the Tx done and repools the pinned connection. -/
theorem C5_witness :
    (TxCommit { done := false, conn := 0 } (newDB 1 oAllOk)).1 = none ∧
    (TxCommit { done := false, conn := 0 } (newDB 1 oAllOk)).2.1.done = true ∧
    (TxCommit { done := false, conn := 0 } (newDB 1 oAllOk)).2.2.idle = [some 0] := by
  have h := C5_commit_release { done := false, conn := 0 } (newDB 1 oAllOk) rfl
  refine ⟨h.1, ?_, ?_⟩
  · rw [h.2.1]
  · exact h.2.2.2.2 (by decide) (by decide)

/-- Claim C10: pushConn, given a nil connection and an error other than
ErrBadConn, appends the nil entry whenever the idle list is below
capacity; and the acquisition-failure paths of DB.Prepare, DB.Begin
and pool-mode statement execution do hand that nil connection to
pushConn, leaving a nil entry in the idle list. -/
theorem C10_nil_push :
    (∀ (w : World) (e : Res), e ≠ some Err.badConn →
      w.idle.length < w.maxIdleConns →
      pushConn w none e = { w with idle := w.idle ++ [none] }) ∧
    (dbPrepare "S" (newDB 1 oConnFail)).1 = some Err.connectFail ∧
    (dbPrepare "S" (newDB 1 oConnFail)).2.2.idle = [none] ∧
    (dbBegin (newDB 1 oConnFail)).1.1 = some Err.connectFail ∧
    (dbBegin (newDB 1 oConnFail)).2.idle = [none] ∧
    (stmtExecStep (newStmt "S", newDB 1 oConnFail)).1 = some Err.connectFail ∧
    (stmtExecStep (newStmt "S", newDB 1 oConnFail)).2.2.idle = [none] := by
  refine ⟨?_, rfl, rfl, rfl, rfl, rfl, rfl⟩
  intro w e he hlen
  unfold pushConn
  rw [if_neg he, if_neg (not_le.mpr hlen)]

/-- Witness for claim C10 at a concrete pool with room. -/
theorem C10_witness :
    pushConn (newDB 1 oAllOk) none (some Err.connectFail)
      = { (newDB 1 oAllOk) with idle := (newDB 1 oAllOk).idle ++ [none] } :=
  C10_nil_push.1 (newDB 1 oAllOk) (some Err.connectFail) (by decide) (by decide)

section RetryLemmas

theorem retryW_succ {σ : Type} (f : σ → Res × σ) (n : Nat) (s : σ) :
    retryW f (n + 1) s
      = (if (f s).1 = some Err.badConn ∧ n ≠ 0 then retryW f n (f s).2 else f s) := rfl

theorem dbPingN_succ (n : Nat) (w : World) :
    dbPingN (n + 1) w
      = (match popConn w with
        | (Except.error e, w1) => (some e, w1)
        | (Except.ok cid, w1) =>
          let p := connCmd (w1.addEv (Ev.lock cid)) cid Cmd.ping
          let w2 := pushConn (p.2.addEv (Ev.unlock cid)) (some cid) p.1
          if p.1 = some Err.badConn ∧ n ≠ 0 then dbPingN n w2 else (p.1, w2)) := rfl

theorem popConn_empty (w : World) (hi : w.idle = []) : popConn w = newConn w := by
  unfold popConn
  rw [hi]
  rfl

theorem newConn_fst_ok (w : World) (hc : w.oracle w.time Cmd.connect = none) :
    (newConn w).1 = Except.ok w.nextConn := by
  simp [newConn, connCmd, hc]

/-- One db.exec attempt on an empty pool with a conn whose connects
succeed and whose statement executions all fail with ErrBadConn:
the attempt returns ErrBadConn, evicts the fresh connection (idle
stays empty) and sends exactly one more exec. -/
theorem dbExec1_allBad (sql : String) (w : World)
    (hc : ∀ t, w.oracle t Cmd.connect = none)
    (he : ∀ t q, w.oracle t (Cmd.exec q) = some Err.badConn)
    (hi : w.idle = []) :
    (dbExec1 sql w).1 = some Err.badConn ∧
    (dbExec1 sql w).2.idle = [] ∧
    (dbExec1 sql w).2.oracle = w.oracle ∧
    ((dbExec1 sql w).2.trace.countP (isExecEv sql))
      = w.trace.countP (isExecEv sql) + 1 := by
  refine ⟨?_, ?_, ?_, ?_⟩ <;>
    simp [dbExec1, popConn, hi, newConn, connCmd, pushConn, closeLocked, dbConnClose,
      World.addEv, updConn, ConnData.fresh, ConnData.apply, hc, he, isExecEv,
      List.countP_append, List.countP_cons]

/-- Exhausting the DB.Exec retry budget: with every exec failing as
ErrBadConn the loop runs all its attempts, returns ErrBadConn and
sends one exec per attempt. -/
theorem retryW_allBad (sql : String) : ∀ (n : Nat) (w : World),
    (∀ t, w.oracle t Cmd.connect = none) →
    (∀ t q, w.oracle t (Cmd.exec q) = some Err.badConn) →
    w.idle = [] →
    (retryW (dbExec1 sql) (n + 1) w).1 = some Err.badConn ∧
    (retryW (dbExec1 sql) (n + 1) w).2.idle = [] ∧
    (retryW (dbExec1 sql) (n + 1) w).2.oracle = w.oracle ∧
    ((retryW (dbExec1 sql) (n + 1) w).2.trace.countP (isExecEv sql))
      = w.trace.countP (isExecEv sql) + (n + 1) := by
  intro n
  induction n with
  | zero =>
    intro w hc he hi
    obtain ⟨h1, h2, h3, h4⟩ := dbExec1_allBad sql w hc he hi
    rw [retryW_succ]
    rw [if_neg (by simp)]
    exact ⟨h1, h2, h3, by rw [h4]⟩
  | succ n ih =>
    intro w hc he hi
    obtain ⟨h1, h2, h3, h4⟩ := dbExec1_allBad sql w hc he hi
    rw [retryW_succ]
    rw [if_pos ⟨h1, Nat.succ_ne_zero n⟩]
    obtain ⟨g1, g2, g3, g4⟩ := ih (dbExec1 sql w).2
      (by rw [h3]; exact hc) (by rw [h3]; exact he) h2
    refine ⟨g1, g2, by rw [g3, h3], ?_⟩
    rw [g4, h4]
    omega

/-- One failing ping attempt, as a step relation: the world after the
attempt still satisfies the loop invariant and carries one more ping
event. -/
theorem pingStep_allBad (n : Nat) (w : World)
    (hc : ∀ t, w.oracle t Cmd.connect = none)
    (hp : ∀ t, w.oracle t Cmd.ping = some Err.badConn)
    (hi : w.idle = []) :
    ∃ w2, dbPingN (n + 1 + 1) w = dbPingN (n + 1) w2 ∧
      w2.oracle = w.oracle ∧ w2.idle = [] ∧
      w2.trace.countP isPingEv = w.trace.countP isPingEv + 1 := by
  rw [dbPingN_succ]
  simp [popConn, hi, newConn, connCmd, pushConn, closeLocked, dbConnClose,
    World.addEv, updConn, ConnData.fresh, ConnData.apply, hc, hp]
  exact ⟨_, rfl, rfl, rfl, by
    simp [List.countP_append, List.countP_cons, isPingEv]⟩

/-- Exhausting the DB.Ping retry budget: with every ping failing as
ErrBadConn the loop runs all its attempts, returns ErrBadConn and
sends one ping per attempt. -/
theorem dbPingN_allBad (n : Nat) : ∀ (w : World),
    (∀ t, w.oracle t Cmd.connect = none) →
    (∀ t, w.oracle t Cmd.ping = some Err.badConn) →
    w.idle = [] →
    (dbPingN (n + 1) w).1 = some Err.badConn ∧
    (dbPingN (n + 1) w).2.idle = [] ∧
    (dbPingN (n + 1) w).2.oracle = w.oracle ∧
    ((dbPingN (n + 1) w).2.trace.countP isPingEv)
      = w.trace.countP isPingEv + (n + 1) := by
  induction n with
  | zero =>
    intro w hc hp hi
    rw [dbPingN_succ]
    refine ⟨?_, ?_, ?_, ?_⟩ <;>
      simp [popConn, hi, newConn, connCmd, pushConn, closeLocked, dbConnClose,
        World.addEv, updConn, ConnData.fresh, ConnData.apply, hc, hp, isPingEv,
        List.countP_append, List.countP_cons]
  | succ n ih =>
    intro w hc hp hi
    obtain ⟨w2, heq, ho2, hi2, hn2⟩ := pingStep_allBad n w hc hp hi
    rw [heq]
    obtain ⟨g1, g2, g3, g4⟩ := ih w2 (by rw [ho2]; exact hc) (by rw [ho2]; exact hp) hi2
    refine ⟨g1, g2, by rw [g3, ho2], ?_⟩
    rw [g4, hn2]
    omega

end RetryLemmas

/-- Claim C3: a retrying facade operation repeats its inner step only
while the step returned ErrBadConn and attempts remain — any other
result, including success, stops after one step — and under an
always-ErrBadConn conn, DB.Exec returns ErrBadConn after exactly 10
exec attempts and DB.Ping after exactly 3 ping attempts. -/
theorem C3_retry_policy :
    (∀ (σ : Type) (f : σ → Res × σ) (n : Nat) (s : σ),
      (f s).1 ≠ some Err.badConn → retryW f (n + 1) s = f s) ∧
    (∀ (o : Nat → Cmd → Res) (m : Nat) (sql : String),
      (∀ t, o t Cmd.connect = none) →
      (∀ t q, o t (Cmd.exec q) = some Err.badConn) →
      (dbExec sql (newDB m o)).1 = some Err.badConn ∧
      ((dbExec sql (newDB m o)).2.trace.countP (isExecEv sql)) = 10) ∧
    (∀ (o : Nat → Cmd → Res) (m : Nat),
      (∀ t, o t Cmd.connect = none) →
      (∀ t, o t Cmd.ping = some Err.badConn) →
      (dbPing (newDB m o)).1 = some Err.badConn ∧
      ((dbPing (newDB m o)).2.trace.countP isPingEv) = 3) := by
  refine ⟨?_, ?_, ?_⟩
  · intro σ f n s hne
    rw [retryW_succ]
    rw [if_neg (by simp [hne])]
  · intro o m sql hc he
    obtain ⟨h1, _, _, h4⟩ := retryW_allBad sql 9 (newDB m o) hc he rfl
    refine ⟨h1, ?_⟩
    have h4' : ((dbExec sql (newDB m o)).2.trace.countP (isExecEv sql))
        = (([] : List Ev).countP (isExecEv sql)) + 10 := h4
    simpa using h4'
  · intro o m hc hp
    obtain ⟨h1, _, _, h4⟩ := dbPingN_allBad 2 (newDB m o) hc hp rfl
    refine ⟨h1, ?_⟩
    have h4' : ((dbPing (newDB m o)).2.trace.countP isPingEv)
        = (([] : List Ev).countP isPingEv) + 3 := h4
    simpa using h4'

/-- Witness for claim C3: a non-ErrBadConn step stops the loop at one
iteration, and concrete always-failing oracles exhaust the Exec and
Ping budgets. -/
theorem C3_witness :
    retryW (fun (w : World) => (none, w)) 5 (newDB 0 oAllOk)
      = (none, newDB 0 oAllOk) ∧
    (dbExec "select 1" (newDB 1 oExecBad)).1 = some Err.badConn ∧
    ((dbExec "select 1" (newDB 1 oExecBad)).2.trace.countP (isExecEv "select 1")) = 10 ∧
    (dbPing (newDB 1 oPingBad)).1 = some Err.badConn ∧
    ((dbPing (newDB 1 oPingBad)).2.trace.countP isPingEv) = 3 := by
  refine ⟨?_, ?_, ?_, ?_, ?_⟩
  · exact C3_retry_policy.1 World (fun w => (none, w)) 4 (newDB 0 oAllOk) (by simp)
  · exact (C3_retry_policy.2.1 oExecBad 1 "select 1" (fun t => rfl) (fun t q => rfl)).1
  · exact (C3_retry_policy.2.1 oExecBad 1 "select 1" (fun t => rfl) (fun t q => rfl)).2
  · exact (C3_retry_policy.2.2 oPingBad 1 (fun t => rfl) (fun t => rfl)).1
  · exact (C3_retry_policy.2.2 oPingBad 1 (fun t => rfl) (fun t => rfl)).2

section CloseLemmas

theorem updConn_self (f : Nat → ConnData) (i : Nat) : updConn f i (f i) = f := by
  funext j
  unfold updConn
  by_cases hj : j = i
  · subst hj; simp
  · simp [hj]

/-- Closing a server statement never changes any connection's state. -/
theorem connCmd_stmtClose_conns (w : World) (cid sid : Nat) :
    (connCmd w cid (Cmd.stmtClose sid)).2.conns = w.conns := by
  unfold connCmd
  by_cases hr : w.oracle w.time (Cmd.stmtClose sid) = none
  · simp only [hr, if_pos]
    show updConn w.conns cid (ConnData.apply (w.conns cid) (Cmd.stmtClose sid)) = w.conns
    exact updConn_self w.conns cid
  · simp [hr]

/-- The Stmt.Close iteration leaves every connection's state intact. -/
theorem closeAll_conns : ∀ (l : List (Nat × Nat)) (w : World) (e : Res),
    (closeAll w e l).2.conns = w.conns
  | [], w, e => rfl
  | (cid, sid) :: rest, w, e => by
    simp only [closeAll]
    by_cases hcl : ((w.addEv (Ev.lock cid)).conns cid).closed = true
    · rw [if_pos hcl]
      rw [closeAll_conns rest]
      rfl
    · rw [if_neg hcl]
      rw [closeAll_conns rest]
      rw [addEv_conns, connCmd_stmtClose_conns, addEv_conns]

/-- The error returned by the Stmt.Close iteration is the result of the
last attempted close: a trailing entry on a non-closed connection
overwrites whatever error came before it. -/
theorem closeAll_last : ∀ (l : List (Nat × Nat)) (w : World) (e : Res) (cid sid : Nat),
    (w.conns cid).closed = false →
    (closeAll w e (l ++ [(cid, sid)])).1
      = (closeAll w e l).2.oracle (closeAll w e l).2.time (Cmd.stmtClose sid)
  | [], w, e, cid, sid, h => by
    simp only [List.nil_append, closeAll]
    rw [if_neg (by rw [addEv_conns]; simp [h])]
    rfl
  | (c1, s1) :: rest, w, e, cid, sid, h => by
    rw [List.cons_append]
    simp only [closeAll]
    by_cases hcl : ((w.addEv (Ev.lock c1)).conns c1).closed = true
    · rw [if_pos hcl]
      exact closeAll_last rest _ e cid sid (by rw [addEv_conns, addEv_conns]; exact h)
    · rw [if_neg hcl]
      refine closeAll_last rest _ _ cid sid ?_
      rw [addEv_conns, connCmd_stmtClose_conns, addEv_conns]
      exact h

/-- A trailing entry whose connection is already closed is skipped: the
error carried out of the earlier entries is returned unchanged. -/
theorem closeAll_last_closed : ∀ (l : List (Nat × Nat)) (w : World) (e : Res) (cid sid : Nat),
    (w.conns cid).closed = true →
    (closeAll w e (l ++ [(cid, sid)])).1 = (closeAll w e l).1
  | [], w, e, cid, sid, h => by
    simp only [List.nil_append, closeAll]
    rw [if_pos (by rw [addEv_conns]; exact h)]
  | (c1, s1) :: rest, w, e, cid, sid, h => by
    rw [List.cons_append]
    simp only [closeAll]
    by_cases hcl : ((w.addEv (Ev.lock c1)).conns c1).closed = true
    · rw [if_pos hcl]
      exact closeAll_last_closed rest _ e cid sid (by rw [addEv_conns, addEv_conns]; exact h)
    · rw [if_neg hcl]
      refine closeAll_last_closed rest _ _ cid sid ?_
      rw [addEv_conns, connCmd_stmtClose_conns, addEv_conns]
      exact h

end CloseLemmas

/-- Oracle that fails the first command with a protocol error and
succeeds afterwards. -/
def oFirstFail : Nat → Cmd → Res := fun t _ =>
  if t = 0 then some (Err.protocol 9) else none

/-- World for the Stmt.Close scenarios: connections 0 and 2 open,
connection 1 already closed. -/
def wC9 : World :=
  { maxIdleConns := 1, oracle := oFirstFail, time := 0,
    conns := fun j => if j = 1 then { closed := true, inTrans := false, autoCommit := true }
                      else ConnData.fresh,
    nextConn := 3, nextStmt := 9, idle := [], trace := [] }

/-- Statement with three cached entries, the middle one on the closed
connection. -/
def sC9 : StmtS :=
  { str := "S", stmts := [(0, 5), (1, 6), (2, 8)], tx := none }

/-- Claim C9: pool-mode Stmt.Close resets the cache to empty; its
result is the outcome of the last attempted close (an entry on a
closed connection is skipped and the carried error kept); and on the
concrete scenario the first close fails, the closed connection gets no
close command (only lock/unlock), the last close succeeds, and the
returned error is the last one observed (none), not the first. -/
theorem C9_stmt_close (s : StmtS) (w : World) (cid sid : Nat) :
    (s.tx = none → (StmtClose s w).2.1.stmts = []) ∧
    (s.tx = none → (w.conns cid).closed = false →
      ∀ l, s.stmts = l ++ [(cid, sid)] →
      (StmtClose s w).1
        = (closeAll w none l).2.oracle (closeAll w none l).2.time (Cmd.stmtClose sid)) ∧
    (s.tx = none → (w.conns cid).closed = true →
      ∀ l, s.stmts = l ++ [(cid, sid)] →
      (StmtClose s w).1 = (closeAll w none l).1) ∧
    ((closeAll wC9 none [(0, 5)]).1 = some (Err.protocol 9) ∧
      (StmtClose sC9 wC9).1 = none ∧
      (StmtClose sC9 wC9).2.1.stmts = [] ∧
      (StmtClose sC9 wC9).2.2.trace
        = [Ev.lock 0, Ev.cmd 0 (Cmd.stmtClose 5), Ev.unlock 0,
           Ev.lock 1, Ev.unlock 1,
           Ev.lock 2, Ev.cmd 2 (Cmd.stmtClose 8), Ev.unlock 2]) := by
  refine ⟨?_, ?_, ?_, by refine ⟨rfl, rfl, rfl, rfl⟩⟩
  · intro h
    simp [StmtClose, h]
  · intro h hcl l hl
    simp only [StmtClose, h, hl]
    exact closeAll_last l w none cid sid hcl
  · intro h hcl l hl
    simp only [StmtClose, h, hl]
    exact closeAll_last_closed l w none cid sid hcl

/-- Witness for claim C9: closing a one-entry statement on the scenario
world empties the cache and surfaces the close attempt's error. -/
theorem C9_witness :
    (StmtClose { str := "S", stmts := [(0, 5)], tx := none } wC9).2.1.stmts = [] ∧
    (StmtClose { str := "S", stmts := [(0, 5)], tx := none } wC9).1
      = some (Err.protocol 9) := by
  constructor
  · exact (C9_stmt_close { str := "S", stmts := [(0, 5)], tx := none } wC9 0 5).1 rfl
  · exact (C9_stmt_close { str := "S", stmts := [(0, 5)], tx := none } wC9 0 5).2.1
      rfl rfl [] rfl

/-- The DB.Prepare of the statement-affinity scenario: maxIdleConns = 1
against an infallible conn. -/
def c6a : Res × StmtS × World := dbPrepare "S" (newDB 1 oAllOk)

/-- First Stmt.Exec of the scenario. -/
def c6b : Res × StmtS × World := StmtExec c6a.2.1 c6a.2.2

/-- Second Stmt.Exec of the scenario. -/
def c6c : Res × StmtS × World := StmtExec c6b.2.1 c6b.2.2

/-- Claim C6: Stmt.prepare on a popped connection reuses the cached
server statement when present — returning with no further command —
and otherwise prepares on the connection, caching the result on
success only; consequently Prepare followed by two Execs with
maxIdleConns = 1 sends exactly one prepare to the server. -/
theorem C6_stmt_cache (s : StmtS) (sql : String) (w : World) (cid sid : Nat) :
    ((popConn w).1 = Except.ok cid → lookupStmt s.stmts cid = some sid →
      stmtPrepare s sql w = ((some cid, some sid, none), s, (popConn w).2)) ∧
    ((popConn w).1 = Except.ok cid → lookupStmt s.stmts cid = none →
      (popConn w).2.oracle (popConn w).2.time (Cmd.prepareCmd sql) = none →
      (stmtPrepare s sql w).2.1.stmts = s.stmts ++ [(cid, (popConn w).2.nextStmt)] ∧
      (stmtPrepare s sql w).1 = (some cid, some (popConn w).2.nextStmt, none)) ∧
    (∀ e, (popConn w).1 = Except.ok cid → lookupStmt s.stmts cid = none →
      (popConn w).2.oracle (popConn w).2.time (Cmd.prepareCmd sql) = some e →
      (stmtPrepare s sql w).2.1 = s ∧
      (stmtPrepare s sql w).1 = (some cid, none, some e)) ∧
    (c6a.1 = none ∧ c6b.1 = none ∧ c6c.1 = none ∧
      c6c.2.2.trace.countP isPrepEv = 1) := by
  refine ⟨?_, ?_, ?_, by refine ⟨rfl, rfl, rfl, rfl⟩⟩
  · intro hok hlk
    have hsh : popConn w = (Except.ok cid, (popConn w).2) := by
      calc popConn w = ((popConn w).1, (popConn w).2) := rfl
        _ = (Except.ok cid, (popConn w).2) := by rw [hok]
    simp only [stmtPrepare]
    rw [hsh]
    simp only [hlk]
  · intro hok hlk hor
    have hsh : popConn w = (Except.ok cid, (popConn w).2) := by
      calc popConn w = ((popConn w).1, (popConn w).2) := rfl
        _ = (Except.ok cid, (popConn w).2) := by rw [hok]
    have hp1 : (connCmd ((popConn w).2.addEv (Ev.lock cid)) cid (Cmd.prepareCmd sql)).1
        = none := hor
    simp only [stmtPrepare]
    rw [hsh]
    simp only [hlk, hp1]
    refine ⟨?_, ?_⟩ <;> trivial
  · intro e hok hlk hor
    have hsh : popConn w = (Except.ok cid, (popConn w).2) := by
      calc popConn w = ((popConn w).1, (popConn w).2) := rfl
        _ = (Except.ok cid, (popConn w).2) := by rw [hok]
    have hp1 : (connCmd ((popConn w).2.addEv (Ev.lock cid)) cid (Cmd.prepareCmd sql)).1
        = some e := hor
    simp only [stmtPrepare]
    rw [hsh]
    simp only [hlk, hp1]
    refine ⟨?_, ?_⟩ <;> trivial

/-- Pool with one warm idle connection for the cache-hit witness. -/
def wC6 : World :=
  { maxIdleConns := 1, oracle := oAllOk, time := 0,
    conns := fun _ => ConnData.fresh,
    nextConn := 1, nextStmt := 6, idle := [some 0], trace := [] }

/-- Witness for claim C6: a statement holding a cache entry for the
popped connection is reused as-is, with no server prepare. -/
theorem C6_witness :
    stmtPrepare { str := "S", stmts := [(0, 5)], tx := none } "S" wC6
      = ((some 0, some 5, none), { str := "S", stmts := [(0, 5)], tx := none },
        (popConn wC6).2) :=
  (C6_stmt_cache { str := "S", stmts := [(0, 5)], tx := none } "S" wC6 0 5).1 rfl rfl

/-- Claim C7: with a transaction bound, Stmt.Exec and Stmt.Query run on
the pinned transaction connection and return its result directly —
success or any error other than ErrTxDone, including ErrBadConn, with
the statement and the pool idle list untouched and exactly one command
sent between lock and unlock, so no pool fallback and no retry — and
only when the transactional path fails with ErrTxDone (the transaction
is done) do they close the transactional statement locally, clear tx,
and fall through to the pool-mode retry loop. -/
theorem C7_stmt_tx_path (s : StmtS) (t : TxS) (sid : Nat) (w : World)
    (h : s.tx = some (t, sid)) :
    (t.done = false → w.oracle w.time (Cmd.stmtExec sid) ≠ some Err.txDone →
      (StmtExec s w).1 = w.oracle w.time (Cmd.stmtExec sid) ∧
      (StmtExec s w).2.1 = s ∧
      (StmtExec s w).2.2.idle = w.idle ∧
      (StmtExec s w).2.2.trace
        = w.trace ++ [Ev.lock t.conn, Ev.cmd t.conn (Cmd.stmtExec sid), Ev.unlock t.conn]) ∧
    (t.done = true →
      (StmtExec s w)
        = ((retryW stmtExecStep 10 ((txClose s w).2.1, (txClose s w).2.2)).1,
           (retryW stmtExecStep 10 ((txClose s w).2.1, (txClose s w).2.2)).2.1,
           (retryW stmtExecStep 10 ((txClose s w).2.1, (txClose s w).2.2)).2.2) ∧
      (txClose s w).2.1.tx = none) ∧
    (t.done = false → w.oracle w.time (Cmd.stmtQuery sid) ≠ some Err.txDone →
      (StmtQuery s w).1 = w.oracle w.time (Cmd.stmtQuery sid) ∧
      (StmtQuery s w).2.1 = s ∧
      (StmtQuery s w).2.2.idle = w.idle ∧
      (StmtQuery s w).2.2.trace
        = w.trace ++ [Ev.lock t.conn, Ev.cmd t.conn (Cmd.stmtQuery sid), Ev.unlock t.conn]) ∧
    (t.done = true →
      (StmtQuery s w)
        = ((retryW stmtQueryStep 10 ((txClose s w).2.1, (txClose s w).2.2)).1,
           (retryW stmtQueryStep 10 ((txClose s w).2.1, (txClose s w).2.2)).2.1,
           (retryW stmtQueryStep 10 ((txClose s w).2.1, (txClose s w).2.2)).2.2)) ∧
    ((w.conns t.conn).closed = false →
      (txClose s w).2.2.trace
        = w.trace ++ [Ev.lock t.conn, Ev.cmd t.conn (Cmd.stmtClose sid), Ev.unlock t.conn]) := by
  refine ⟨?_, ?_, ?_, ?_, ?_⟩
  · intro hd hne
    have hd' : ¬ (t.done = true) := by simp [hd]
    simp only [StmtExec, txExec, h, if_neg hd']
    by_cases hz : (connCmd (w.addEv (Ev.lock t.conn)) t.conn (Cmd.stmtExec sid)).1 = none
    · rw [if_pos hz]
      refine ⟨rfl, rfl, rfl, ?_⟩
      rw [addEv_trace, connCmd_trace, addEv_trace]
      simp
    · rw [if_neg hz]
      have hne' : (connCmd (w.addEv (Ev.lock t.conn)) t.conn (Cmd.stmtExec sid)).1
          ≠ some Err.txDone := hne
      rw [if_pos hne']
      refine ⟨rfl, rfl, rfl, ?_⟩
      rw [addEv_trace, connCmd_trace, addEv_trace]
      simp
  · intro hd
    constructor
    · simp only [StmtExec, txExec, h, if_pos hd]
      rw [if_neg (by simp), if_neg (by simp)]
    · simp only [txClose, h]
  · intro hd hne
    have hd' : ¬ (t.done = true) := by simp [hd]
    simp only [StmtQuery, txQuery, h, if_neg hd']
    by_cases hz : (connCmd (w.addEv (Ev.lock t.conn)) t.conn (Cmd.stmtQuery sid)).1 = none
    · rw [if_pos hz]
      refine ⟨rfl, rfl, rfl, ?_⟩
      rw [addEv_trace, connCmd_trace, addEv_trace]
      simp
    · rw [if_neg hz]
      have hne' : (connCmd (w.addEv (Ev.lock t.conn)) t.conn (Cmd.stmtQuery sid)).1
          ≠ some Err.txDone := hne
      rw [if_pos hne']
      refine ⟨rfl, rfl, rfl, ?_⟩
      rw [addEv_trace, connCmd_trace, addEv_trace]
      simp
  · intro hd
    simp only [StmtQuery, txQuery, h, if_pos hd]
    rw [if_neg (by simp), if_neg (by simp)]
  · intro hcl
    simp only [txClose, h]
    rw [if_neg (by rw [addEv_conns]; simp [hcl])]
    rw [addEv_trace, connCmd_trace, addEv_trace]
    simp

/-- Transactional statement pinned to a live transaction on connection
0 for the C7 witness. -/
def sC7 : StmtS :=
  { str := "S", stmts := [], tx := some ({ done := false, conn := 0 }, 3) }

/-- Witness for claim C7: executing a live transactional statement on a
healthy world touches neither the statement nor the pool. -/
theorem C7_witness :
    (StmtExec sC7 (newDB 1 oAllOk)).1 = none ∧
    (StmtExec sC7 (newDB 1 oAllOk)).2.1 = sC7 ∧
    (StmtExec sC7 (newDB 1 oAllOk)).2.2.idle = (newDB 1 oAllOk).idle := by
  have h := (C7_stmt_tx_path sC7 { done := false, conn := 0 } 3 (newDB 1 oAllOk) rfl).1
    rfl (by decide)
  exact ⟨h.1, h.2.1, h.2.2.1⟩

end MixerDB
